import Mathlib

/-!
Verification development for the ECC core of aws-c-cal (src/source/ecc.c).

The C code is shallowly embedded: byte cursors become lists of byte values,
the DER token stream becomes a list of typed tokens, out-parameters become
fields of an explicit result record (an Option field models a pointer that
the function may leave untouched), and the atomic reference count becomes an
explicit state record threaded through a list of operations.
-/

/-- A byte value (the embedding never depends on the 0..255 bound). -/
abbrev Byte := Nat

/-- The recoverable error codes raised by this translation unit:
AWS_ERROR_CAL_UNKNOWN_OBJECT_IDENTIFIER, AWS_ERROR_CAL_UNSUPPORTED_ALGORITHM,
AWS_ERROR_CAL_MISSING_REQUIRED_KEY_COMPONENT. -/
inductive CalError where
  | unknownObjectIdentifier
  | unsupportedAlgorithm
  | missingRequiredKeyComponent
deriving DecidableEq, Repr

/-- Modelled from the spec: the enum aws_ecc_curve_name is declared in a
header that is not part of src/; the spec fixes it as the ordinal-stable
closed enumeration \x7bP256, P384\x7d, so AWS_CAL_ECDSA_P256 = 0 and
AWS_CAL_ECDSA_P384 = 1. -/
inductive CurveName where
  | p256
  | p384
deriving DecidableEq, Repr

/-- The integer value of the C enum constant (C enums are integers, and
callers may pass values outside the declared constants). -/
def CurveName.toOrdinal : CurveName → Int
  | .p256 => 0
  | .p384 => 1

/-- The DER TLV types this translation unit distinguishes; every other
type is collapsed into `other` because ecc.c ignores it. -/
inductive DerType where
  | objectIdentifier
  | bitString
  | octetString
  | other (tag : Nat)
deriving DecidableEq, Repr

/-- One TLV token delivered by the external DER decoder: its type and the
raw content bytes that aws_der_decoder_tlv_blob / aws_der_decoder_tlv_string
would expose. -/
structure DerToken where
  type : DerType
  bytes : List Byte
deriving DecidableEq, Repr

/-- static uint8_t s_p256_oid[] (ecc.c lines 26-35). -/
def s_p256_oid : List Byte := [0x2A, 0x86, 0x48, 0xCE, 0x3D, 0x03, 0x01, 0x07]

/-- static uint8_t s_p384_oid[] (ecc.c lines 38-44). -/
def s_p384_oid : List Byte := [0x2B, 0x81, 0x04, 0x00, 0x22]

/-- static struct aws_byte_cursor *s_ecc_curve_oids[] (ecc.c lines 47-50),
indexed by the enum ordinal. -/
def s_ecc_curve_oids : List (List Byte) := [s_p256_oid, s_p384_oid]

/-- aws_ecc_curve_name_from_oid (ecc.c lines 52-64): exact byte comparison
against the two static OIDs, in order. -/
def aws_ecc_curve_name_from_oid (oid : List Byte) : Except CalError CurveName :=
  if oid = s_p256_oid then .ok .p256
  else if oid = s_p384_oid then .ok .p384
  else .error .unknownObjectIdentifier

/-- aws_ecc_oid_from_curve_name (ecc.c lines 66-72): bounds check on the raw
enum value (curve_name < AWS_CAL_ECDSA_P256 or curve_name > AWS_CAL_ECDSA_P384)
then a read of the static table at that index. -/
def aws_ecc_oid_from_curve_name (curve_name : Int) : Except CalError (List Byte) :=
  if curve_name < 0 ∨ 1 < curve_name then .error .unsupportedAlgorithm
  else .ok ((s_ecc_curve_oids.get? curve_name.toNat).getD [])

/-- aws_ecc_key_coordinate_byte_size_from_curve_name (ecc.c lines 121-130). -/
def aws_ecc_key_coordinate_byte_size_from_curve_name : CurveName → Nat
  | .p256 => 32
  | .p384 => 48

/-- The local state of the token loop inside aws_der_decoder_load_ecc_key_pair:
the out_curve_name pointer target (none = never written), the two slot
cursors pair_part_1 / pair_part_2, and whether current_part points at
pair_part_2.  curve_name_recognized is not modelled separately because the C
code sets it exactly when it writes *out_curve_name, so it equals
`curveName.isSome` here. -/
structure LoopState where
  curveName : Option CurveName
  part1 : List Byte
  part2 : List Byte
  onPart2 : Bool
deriving DecidableEq, Repr

/-- The loop state at entry (ecc.c lines 144-153): both slots zeroed,
current_part = &pair_part_1. -/
def initLoopState : LoopState := ⟨none, [], [], false⟩

/-- One iteration of the while loop (ecc.c lines 155-175): an
OBJECT_IDENTIFIER that matches a known curve overwrites *out_curve_name; a
BIT_STRING or OCTET_STRING is stored through current_part, after which
current_part points at pair_part_2; everything else is skipped. -/
def stepToken (s : LoopState) (t : DerToken) : LoopState :=
  if t.type = DerType.objectIdentifier then
    match aws_ecc_curve_name_from_oid t.bytes with
    | .ok c => { s with curveName := some c }
    | .error _ => s
  else if t.type = DerType.bitString ∨ t.type = DerType.octetString then
    if s.onPart2 then { s with part2 := t.bytes }
    else { s with part1 := t.bytes, onPart2 := true }
  else s

/-- The whole token loop, starting from the zeroed state. -/
def loopRun (tokens : List DerToken) : LoopState :=
  tokens.foldl stepToken initLoopState

/-- Classification of one slot (ecc.c lines 188-202): a slot takes part only
if its pointer and length are nonzero; length == key_coordinate_size marks it
as the private key, length == public_key_blob_size as the public key, and a
later classification overwrites an earlier one.  `acc` is the pair
(private_key, public_key). -/
def classifySlot (slot : List Byte) (k blobSize : Nat)
    (acc : Option (List Byte) × Option (List Byte)) :
    Option (List Byte) × Option (List Byte) :=
  if slot ≠ [] then
    if slot.length = k then (some slot, acc.2)
    else if slot.length = blobSize then (acc.1, some slot)
    else acc
  else acc

/-- Both slot classifications in program order: pair_part_1 first, then
pair_part_2 (so pair_part_2 wins a tie). -/
def classifyParts (s : LoopState) (k : Nat) :
    Option (List Byte) × Option (List Byte) :=
  classifySlot s.part2 k (k * 2 + 1) (classifySlot s.part1 k (k * 2 + 1) (none, none))

/-- The observable result of aws_der_decoder_load_ecc_key_pair: the returned
status (none = AWS_OP_SUCCESS) and the final values of the four
out-parameters.  curveName = none models *out_curve_name never having been
written. -/
structure DecodeResult where
  ret : Option CalError
  pubX : List Byte
  pubY : List Byte
  privD : List Byte
  curveName : Option CurveName
deriving DecidableEq, Repr

/-- aws_der_decoder_load_ecc_key_pair (ecc.c lines 132-221).  The three view
out-parameters are zeroed on entry; the token loop runs; absence of a
recognized curve raises UnknownObjectIdentifier; the slots are classified by
length; no classified slot raises MissingRequiredKeyComponent; otherwise the
private slot is copied verbatim and the public slot is advanced past its
first byte and split into the X and Y views of key_coordinate_size bytes. -/
def aws_der_decoder_load_ecc_key_pair (tokens : List DerToken) : DecodeResult :=
  let s := loopRun tokens
  match s.curveName with
  | none =>
      { ret := some CalError.unknownObjectIdentifier,
        pubX := [], pubY := [], privD := [], curveName := none }
  | some c =>
      let k := aws_ecc_key_coordinate_byte_size_from_curve_name c
      let parts := classifyParts s k
      if parts.1 = none ∧ parts.2 = none then
        { ret := some CalError.missingRequiredKeyComponent,
          pubX := [], pubY := [], privD := [], curveName := some c }
      else
        let privD := parts.1.getD []
        match parts.2 with
        | none =>
            { ret := none, pubX := [], pubY := [], privD := privD, curveName := some c }
        | some p =>
            { ret := none,
              pubX := (p.drop 1).take k,
              pubY := ((p.drop 1).drop k).take k,
              privD := privD,
              curveName := some c }

/-- The observable reference-counting state of a key pair: the atomic
ref_count field and the number of times the destroy path has run. -/
structure KeyPairRc where
  refCount : Nat
  destroyCalls : Nat
deriving DecidableEq, Repr

/-- aws_ecc_key_pair_acquire (ecc.c lines 223-225): atomic fetch-add of 1. -/
def aws_ecc_key_pair_acquire (s : KeyPairRc) : KeyPairRc :=
  { s with refCount := s.refCount + 1 }

/-- aws_ecc_key_pair_release (ecc.c lines 227-233): atomic fetch-sub of 1,
then the destroy path runs exactly when the value observed before the
decrement was 1.  The counter is modelled as an unbounded Nat; size_t
wraparound is outside the scope of the claims about it. -/
def aws_ecc_key_pair_release (s : KeyPairRc) : KeyPairRc :=
  let old_value := s.refCount
  let s1 := { s with refCount := s.refCount - 1 }
  if old_value = 1 then { s1 with destroyCalls := s1.destroyCalls + 1 } else s1

/-- One acquire or release call on a key pair handle. -/
inductive RcOp where
  | acquire
  | release
deriving DecidableEq, Repr

/-- A sequence of acquire / release calls applied in order.  The C
operations are single atomic read-modify-writes, so any thread interleaving
of calls is some such sequence. -/
def runOps (s : KeyPairRc) (ops : List RcOp) : KeyPairRc :=
  ops.foldl
    (fun st op =>
      match op with
      | RcOp.acquire => aws_ecc_key_pair_acquire st
      | RcOp.release => aws_ecc_key_pair_release st)
    s

/-- Number of acquire calls in a sequence. -/
def countAcq : List RcOp → Nat
  | [] => 0
  | RcOp.acquire :: rest => countAcq rest + 1
  | RcOp.release :: rest => countAcq rest

/-- Number of release calls in a sequence. -/
def countRel : List RcOp → Nat
  | [] => 0
  | RcOp.acquire :: rest => countRel rest
  | RcOp.release :: rest => countRel rest + 1

/-- The sequence consists of paired acquire / release calls: equal totals,
and no release happens before its matching acquire (every proper prefix has
at least as many acquires as releases). -/
def pairedOps (ops : List RcOp) : Prop :=
  countAcq ops = countRel ops ∧
  ∀ n, n < ops.length → countRel (ops.take n) ≤ countAcq (ops.take n)

/-- Outcome of dispatching one handle operation: either the AWS_FATAL_ASSERT
fired (the process terminates) or the call was forwarded to the backend and
produced a value. -/
inductive FatalOr (α : Type) where
  | fatal : FatalOr α
  | result : α → FatalOr α

/-- struct aws_ecc_key_pair_vtable: the five required backend operations.
A missing function pointer is modelled as none.  κ is the backend-opaque
key-pair representation; signatures carry the data the C functions pass
through (messages and signatures as byte lists, int status codes). -/
structure EccVtable (κ : Type) where
  destroy : Option (κ → κ)
  derive_pub_key : Option (κ → Int × κ)
  sign_message : Option (κ → List Byte → Int × List Byte)
  verify_signature : Option (κ → List Byte → List Byte → Int)
  signature_length : Option (κ → Nat)

/-- s_aws_ecc_key_pair_destroy (ecc.c lines 74-79): a null key pair is a
no-op; otherwise AWS_FATAL_ASSERT that the vtable has destroy, then forward. -/
def s_aws_ecc_key_pair_destroy {κ : Type} (vt : EccVtable κ) (key_pair : Option κ) :
    FatalOr (Option κ) :=
  match key_pair with
  | none => .result none
  | some kp =>
    match vt.destroy with
    | none => .fatal
    | some f => .result (some (f kp))

/-- aws_ecc_key_pair_derive_public_key (ecc.c lines 81-84). -/
def aws_ecc_key_pair_derive_public_key {κ : Type} (vt : EccVtable κ) (key_pair : κ) :
    FatalOr (Int × κ) :=
  match vt.derive_pub_key with
  | none => .fatal
  | some f => .result (f key_pair)

/-- aws_ecc_key_pair_sign_message (ecc.c lines 86-92). -/
def aws_ecc_key_pair_sign_message {κ : Type} (vt : EccVtable κ) (key_pair : κ)
    (message : List Byte) : FatalOr (Int × List Byte) :=
  match vt.sign_message with
  | none => .fatal
  | some f => .result (f key_pair message)

/-- aws_ecc_key_pair_verify_signature (ecc.c lines 94-101). -/
def aws_ecc_key_pair_verify_signature {κ : Type} (vt : EccVtable κ) (key_pair : κ)
    (message signature : List Byte) : FatalOr Int :=
  match vt.verify_signature with
  | none => .fatal
  | some f => .result (f key_pair message signature)

/-- aws_ecc_key_pair_signature_length (ecc.c lines 103-107). -/
def aws_ecc_key_pair_signature_length {κ : Type} (vt : EccVtable κ) (key_pair : κ) :
    FatalOr Nat :=
  match vt.signature_length with
  | none => .fatal
  | some f => .result (f key_pair)

/-- The curve names recognized by the loop, in stream order: one entry per
OBJECT_IDENTIFIER token whose bytes match a supported curve OID. -/
def recognizedCurves (tokens : List DerToken) : List CurveName :=
  tokens.filterMap fun t =>
    if t.type = DerType.objectIdentifier then
      match aws_ecc_curve_name_from_oid t.bytes with
      | .ok c => some c
      | .error _ => none
    else none

/-- The byte contents of the BIT_STRING / OCTET_STRING tokens, in stream
order. -/
def keyStrings (tokens : List DerToken) : List (List Byte) :=
  tokens.filterMap fun t =>
    if t.type = DerType.bitString ∨ t.type = DerType.octetString then some t.bytes
    else none

/-- A token that is not a recognized curve OID leaves *out_curve_name alone. -/
theorem stepToken_curveName_eq (s : LoopState) (t : DerToken)
    (h : ∀ c, ¬ (t.type = DerType.objectIdentifier ∧
      aws_ecc_curve_name_from_oid t.bytes = .ok c)) :
    (stepToken s t).curveName = s.curveName := by
  unfold stepToken
  by_cases h1 : t.type = DerType.objectIdentifier
  · simp only [h1, if_true]
    cases hr : aws_ecc_curve_name_from_oid t.bytes with
    | ok c => exact absurd ⟨h1, hr⟩ (h c)
    | error e => rfl
  · simp only [h1, if_false]
    by_cases h2 : t.type = DerType.bitString ∨ t.type = DerType.octetString
    · simp only [h2, if_true]
      by_cases h3 : s.onPart2 <;> simp [h3]
    · simp [h2]

/-- A token that is not a BIT_STRING or OCTET_STRING leaves the two slot
cursors and current_part alone. -/
theorem stepToken_slots_eq (s : LoopState) (t : DerToken)
    (h : ¬ (t.type = DerType.bitString ∨ t.type = DerType.octetString)) :
    (stepToken s t).part1 = s.part1 ∧ (stepToken s t).part2 = s.part2 ∧
    (stepToken s t).onPart2 = s.onPart2 := by
  unfold stepToken
  by_cases h1 : t.type = DerType.objectIdentifier
  · simp only [h1, if_true]
    cases aws_ecc_curve_name_from_oid t.bytes <;> simp
  · simp [h1, h]

/-- Folding "the last write wins" over a list is taking its last element. -/
theorem foldl_lastWins {α : Type} (l : List α) (init : Option α) :
    l.foldl (fun _ c => some c) init =
      match l.getLast? with
      | some c => some c
      | none => init := by
  induction l generalizing init with
  | nil => rfl
  | cons a l ih =>
    cases l with
    | nil => simp
    | cons b l2 =>
      rw [List.foldl_cons, ih, List.getLast?_cons_cons]
      cases hl : (b :: l2).getLast? with
      | some c => rfl
      | none => exact absurd (List.getLast?_eq_none_iff.mp hl) (by simp)

/-- The token loop writes *out_curve_name once per recognized curve OID, in
stream order, so its final value is the last recognized curve. -/
theorem foldl_stepToken_curveName (tokens : List DerToken) (s : LoopState) :
    (tokens.foldl stepToken s).curveName =
      (recognizedCurves tokens).foldl (fun _ c => some c) s.curveName := by
  induction tokens generalizing s with
  | nil => rfl
  | cons t ts ih =>
    rw [List.foldl_cons, ih]
    by_cases h1 : t.type = DerType.objectIdentifier
    · cases hr : aws_ecc_curve_name_from_oid t.bytes with
      | ok c =>
        have h2 : recognizedCurves (t :: ts) = c :: recognizedCurves ts := by
          simp [recognizedCurves, List.filterMap_cons, h1, hr]
        have h3 : (stepToken s t).curveName = some c := by
          simp [stepToken, h1, hr]
        rw [h2, List.foldl_cons, h3]
      | error e =>
        have h2 : recognizedCurves (t :: ts) = recognizedCurves ts := by
          simp [recognizedCurves, List.filterMap_cons, h1, hr]
        have h3 : (stepToken s t).curveName = s.curveName := by
          simp [stepToken, h1, hr]
        rw [h2, h3]
    · have h2 : recognizedCurves (t :: ts) = recognizedCurves ts := by
        simp [recognizedCurves, List.filterMap_cons, h1]
      have h3 : (stepToken s t).curveName = s.curveName :=
        stepToken_curveName_eq s t (fun c hc => h1 hc.1)
      rw [h2, h3]

/-- After the loop, *out_curve_name holds the last recognized curve OID of
the stream, or was never written when no OID matched. -/
theorem loopRun_curveName (tokens : List DerToken) :
    (loopRun tokens).curveName = (recognizedCurves tokens).getLast? := by
  rw [loopRun, foldl_stepToken_curveName]
  rw [foldl_lastWins]
  cases (recognizedCurves tokens).getLast? <;> rfl

/-- The slot cursors after the loop: starting with current_part already on
pair_part_2, pair_part_1 is frozen and pair_part_2 takes the last captured
string; starting on pair_part_1, the first captured string lands in
pair_part_1 and every later one overwrites pair_part_2. -/
theorem foldl_stepToken_slots (tokens : List DerToken) (s : LoopState) :
    ((tokens.foldl stepToken s).part1,
     (tokens.foldl stepToken s).part2,
     (tokens.foldl stepToken s).onPart2) =
      if s.onPart2 then (s.part1, (keyStrings tokens).getLastD s.part2, true)
      else
        match keyStrings tokens with
        | [] => (s.part1, s.part2, false)
        | a :: rest => (a, rest.getLastD s.part2, true) := by
  induction tokens generalizing s with
  | nil =>
    by_cases h : s.onPart2
    · simp [keyStrings, h, List.getLastD]
    · simp [keyStrings, h]
  | cons t ts ih =>
    rw [List.foldl_cons]
    by_cases h2 : t.type = DerType.bitString ∨ t.type = DerType.octetString
    · have h1 : ¬ t.type = DerType.objectIdentifier := by
        rcases h2 with h2 | h2 <;> simp [h2]
      have hks : keyStrings (t :: ts) = t.bytes :: keyStrings ts := by
        simp [keyStrings, List.filterMap_cons, h2]
      by_cases h3 : s.onPart2
      · have hst : stepToken s t = { s with part2 := t.bytes } := by
          simp [stepToken, h1, h2, h3]
        rw [hst, ih]
        simp [h3, hks, List.getLast?_cons, List.getLastD_eq_getLast?]
      · have hst : stepToken s t = { s with part1 := t.bytes, onPart2 := true } := by
          simp [stepToken, h1, h2, h3]
        rw [hst, ih]
        simp [h3, hks, List.getLast?_cons, List.getLastD_eq_getLast?]
    · have hst := stepToken_slots_eq s t h2
      have hks : keyStrings (t :: ts) = keyStrings ts := by
        simp [keyStrings, List.filterMap_cons, h2]
      rw [ih, hst.1, hst.2.1, hst.2.2, hks]

/-- Along a sequence of operations, no release ever observes a count of 1 or
0 (2 ≤ count before every release). -/
def safeFrom : Nat → List RcOp → Prop
  | _, [] => True
  | c, RcOp.acquire :: rest => safeFrom (c + 1) rest
  | c, RcOp.release :: rest => 2 ≤ c ∧ safeFrom (c - 1) rest

/-- When no release observes a count below 2, running the sequence only
shifts the count by the acquire / release balance and never destroys. -/
theorem runOps_safe (ops : List RcOp) : ∀ c d : Nat, safeFrom c ops →
    runOps ⟨c, d⟩ ops = ⟨c + countAcq ops - countRel ops, d⟩ := by
  induction ops with
  | nil => intro c d _; simp [runOps, countAcq, countRel]
  | cons op rest ih =>
    intro c d h
    cases op with
    | acquire =>
      have h' : safeFrom (c + 1) rest := h
      have step : runOps ⟨c, d⟩ (RcOp.acquire :: rest) = runOps ⟨c + 1, d⟩ rest := rfl
      rw [step, ih (c + 1) d h']
      have : c + 1 + countAcq rest - countRel rest =
          c + countAcq (RcOp.acquire :: rest) - countRel (RcOp.acquire :: rest) := by
        simp [countAcq, countRel]; omega
      rw [this]
    | release =>
      have h2 : 2 ≤ c := h.1
      have h' : safeFrom (c - 1) rest := h.2
      have hne : ¬ c = 1 := by omega
      have step : runOps ⟨c, d⟩ (RcOp.release :: rest) = runOps ⟨c - 1, d⟩ rest := by
        simp [runOps, aws_ecc_key_pair_release, hne]
      rw [step, ih (c - 1) d h']
      have : c - 1 + countAcq rest - countRel rest =
          c + countAcq (RcOp.release :: rest) - countRel (RcOp.release :: rest) := by
        simp [countAcq, countRel]; omega
      rw [this]

/-- A sequence whose every prefix keeps the release count strictly below the
acquire count plus the starting count is safe from that starting count. -/
theorem safeFrom_of_prefixBound : ∀ (ops : List RcOp) (c : Nat),
    (∀ n, n ≤ ops.length → countRel (ops.take n) + 1 ≤ countAcq (ops.take n) + c) →
    safeFrom c ops := by
  intro ops
  induction ops with
  | nil => intro c _; trivial
  | cons op rest ih =>
    intro c h
    cases op with
    | acquire =>
      show safeFrom (c + 1) rest
      apply ih
      intro n hn
      have := h (n + 1) (by simpa using Nat.succ_le_succ hn)
      simp [List.take_succ_cons, countAcq, countRel] at this ⊢
      omega
    | release =>
      have hc : 2 ≤ c := by
        have := h 1 (by simp)
        simpa [countAcq, countRel] using this
      refine ⟨hc, ih (c - 1) ?_⟩
      intro n hn
      have := h (n + 1) (by simpa using Nat.succ_le_succ hn)
      simp [List.take_succ_cons, countAcq, countRel] at this ⊢
      omega

/-- Claim C6: for every supported curve name (P256, P384),
aws_ecc_oid_from_curve_name succeeds, and applying aws_ecc_curve_name_from_oid
to the returned OID bytes succeeds and returns the original curve name. -/
theorem c6_oid_curve_round_trip (c : CurveName) :
    ∃ o, aws_ecc_oid_from_curve_name c.toOrdinal = .ok o ∧
      aws_ecc_curve_name_from_oid o = .ok c := by
  cases c
  · exact ⟨s_p256_oid, by constructor <;> rfl⟩
  · exact ⟨s_p384_oid, by constructor <;> rfl⟩

/-- Claim C7: for every enum value outside the supported range (below 0 or
above 1), aws_ecc_oid_from_curve_name fails with UnsupportedAlgorithm; for
every in-range value the OID table has an entry at that index (no
out-of-bounds read) and the function returns exactly that entry. -/
theorem c7_oid_from_curve_name_bounds (n : Int) :
    ((n < 0 ∨ 1 < n) →
      aws_ecc_oid_from_curve_name n = .error CalError.unsupportedAlgorithm) ∧
    (0 ≤ n → n ≤ 1 →
      ∃ o, s_ecc_curve_oids.get? n.toNat = some o ∧
        aws_ecc_oid_from_curve_name n = .ok o) := by
  constructor
  · intro h
    unfold aws_ecc_oid_from_curve_name
    rw [if_pos h]
  · intro h0 h1
    have hn : n = 0 ∨ n = 1 := by omega
    rcases hn with rfl | rfl
    · exact ⟨s_p256_oid, by constructor <;> rfl⟩
    · exact ⟨s_p384_oid, by constructor <;> rfl⟩

theorem c7_oid_from_curve_name_bounds_witness :
    aws_ecc_oid_from_curve_name 5 = .error CalError.unsupportedAlgorithm ∧
    ∃ o, s_ecc_curve_oids.get? (0 : Int).toNat = some o ∧
      aws_ecc_oid_from_curve_name 0 = .ok o :=
  ⟨(c7_oid_from_curve_name_bounds 5).1 (by omega),
   (c7_oid_from_curve_name_bounds 0).2 (by omega) (by omega)⟩

/-- Claim C9: for every key pair whose bound vtable is missing the operation
being dispatched, the dispatch hits the fatal assertion (process
termination); when the operation is present the fatal branch is not taken
and the call is forwarded to the backend function. -/
theorem c9_vtable_dispatch {κ : Type} (vt : EccVtable κ) (kp : κ)
    (message signature : List Byte) :
    (vt.destroy = none → s_aws_ecc_key_pair_destroy vt (some kp) = .fatal) ∧
    (∀ f, vt.destroy = some f →
      s_aws_ecc_key_pair_destroy vt (some kp) = .result (some (f kp))) ∧
    (vt.derive_pub_key = none →
      aws_ecc_key_pair_derive_public_key vt kp = .fatal) ∧
    (∀ f, vt.derive_pub_key = some f →
      aws_ecc_key_pair_derive_public_key vt kp = .result (f kp)) ∧
    (vt.sign_message = none →
      aws_ecc_key_pair_sign_message vt kp message = .fatal) ∧
    (∀ f, vt.sign_message = some f →
      aws_ecc_key_pair_sign_message vt kp message = .result (f kp message)) ∧
    (vt.verify_signature = none →
      aws_ecc_key_pair_verify_signature vt kp message signature = .fatal) ∧
    (∀ f, vt.verify_signature = some f →
      aws_ecc_key_pair_verify_signature vt kp message signature =
        .result (f kp message signature)) ∧
    (vt.signature_length = none →
      aws_ecc_key_pair_signature_length vt kp = .fatal) ∧
    (∀ f, vt.signature_length = some f →
      aws_ecc_key_pair_signature_length vt kp = .result (f kp)) := by
  refine ⟨?_, ?_, ?_, ?_, ?_, ?_, ?_, ?_, ?_, ?_⟩
  · intro h; simp [s_aws_ecc_key_pair_destroy, h]
  · intro f h; simp [s_aws_ecc_key_pair_destroy, h]
  · intro h; simp [aws_ecc_key_pair_derive_public_key, h]
  · intro f h; simp [aws_ecc_key_pair_derive_public_key, h]
  · intro h; simp [aws_ecc_key_pair_sign_message, h]
  · intro f h; simp [aws_ecc_key_pair_sign_message, h]
  · intro h; simp [aws_ecc_key_pair_verify_signature, h]
  · intro f h; simp [aws_ecc_key_pair_verify_signature, h]
  · intro h; simp [aws_ecc_key_pair_signature_length, h]
  · intro f h; simp [aws_ecc_key_pair_signature_length, h]

/-- A deliberately incomplete backend vtable: every operation is absent. -/
def emptyVt : EccVtable Nat := ⟨none, none, none, none, none⟩

/-- A complete backend vtable over Nat-represented key pairs. -/
def fullVt : EccVtable Nat :=
  ⟨some (fun kp => kp + 1),
   some (fun kp => (0, kp)),
   some (fun _kp message => (0, message)),
   some (fun _ _ _ => 0),
   some (fun _ => 72)⟩

theorem c9_vtable_dispatch_witness :
    s_aws_ecc_key_pair_destroy emptyVt (some 7) = .fatal ∧
    aws_ecc_key_pair_derive_public_key emptyVt 7 = .fatal ∧
    aws_ecc_key_pair_sign_message emptyVt 7 [1, 2] = .fatal ∧
    aws_ecc_key_pair_verify_signature emptyVt 7 [1, 2] [3] = .fatal ∧
    aws_ecc_key_pair_signature_length emptyVt 7 = .fatal ∧
    s_aws_ecc_key_pair_destroy fullVt (some 7) = .result (some 8) ∧
    aws_ecc_key_pair_derive_public_key fullVt 7 = .result (0, 7) ∧
    aws_ecc_key_pair_sign_message fullVt 7 [1, 2] = .result (0, [1, 2]) ∧
    aws_ecc_key_pair_verify_signature fullVt 7 [1, 2] [3] = .result 0 ∧
    aws_ecc_key_pair_signature_length fullVt 7 = .result 72 :=
  ⟨(c9_vtable_dispatch emptyVt 7 [1, 2] [3]).1 rfl,
   (c9_vtable_dispatch emptyVt 7 [1, 2] [3]).2.2.1 rfl,
   (c9_vtable_dispatch emptyVt 7 [1, 2] [3]).2.2.2.2.1 rfl,
   (c9_vtable_dispatch emptyVt 7 [1, 2] [3]).2.2.2.2.2.2.1 rfl,
   (c9_vtable_dispatch emptyVt 7 [1, 2] [3]).2.2.2.2.2.2.2.2.1 rfl,
   (c9_vtable_dispatch fullVt 7 [1, 2] [3]).2.1 (fun kp => kp + 1) rfl,
   (c9_vtable_dispatch fullVt 7 [1, 2] [3]).2.2.2.1 (fun kp => (0, kp)) rfl,
   (c9_vtable_dispatch fullVt 7 [1, 2] [3]).2.2.2.2.2.1 (fun _kp message => (0, message)) rfl,
   (c9_vtable_dispatch fullVt 7 [1, 2] [3]).2.2.2.2.2.2.2.1 (fun _ _ _ => 0) rfl,
   (c9_vtable_dispatch fullVt 7 [1, 2] [3]).2.2.2.2.2.2.2.2.2 (fun _ => 72) rfl⟩

/-- Claim C3: on every failing decode, the three view out-parameters keep
the zeroed value written at function entry. -/
theorem c3_failure_leaves_views_zeroed (tokens : List DerToken) (e : CalError)
    (h : (aws_der_decoder_load_ecc_key_pair tokens).ret = some e) :
    (aws_der_decoder_load_ecc_key_pair tokens).pubX = [] ∧
    (aws_der_decoder_load_ecc_key_pair tokens).pubY = [] ∧
    (aws_der_decoder_load_ecc_key_pair tokens).privD = [] := by
  unfold aws_der_decoder_load_ecc_key_pair at h ⊢
  cases hc : (loopRun tokens).curveName with
  | none => simp [hc]
  | some c =>
    rcases hcl : classifyParts (loopRun tokens)
        (aws_ecc_key_coordinate_byte_size_from_curve_name c) with ⟨priv, pub⟩
    simp only [hc, hcl] at h ⊢
    by_cases hcond : priv = none ∧ pub = none
    · simp [hcond]
    · cases pub with
      | none =>
        have hpriv : ¬ priv = none := fun hp => hcond ⟨hp, rfl⟩
        simp [hpriv] at h
      | some p => simp at h

def c3Stream : List DerToken := []

theorem c3_failure_leaves_views_zeroed_witness :
    (aws_der_decoder_load_ecc_key_pair c3Stream).pubX = [] ∧
    (aws_der_decoder_load_ecc_key_pair c3Stream).pubY = [] ∧
    (aws_der_decoder_load_ecc_key_pair c3Stream).privD = [] :=
  c3_failure_leaves_views_zeroed c3Stream CalError.unknownObjectIdentifier rfl

/-- Claim C5: a token stream with no OBJECT_IDENTIFIER token matching a
supported curve OID decodes to UnknownObjectIdentifier, whatever key-material
tokens it carries; the error is the curve check, not the slot check. -/
theorem c5_no_recognized_oid_fails (tokens : List DerToken)
    (h : ∀ t ∈ tokens, t.type = DerType.objectIdentifier →
      aws_ecc_curve_name_from_oid t.bytes = .error CalError.unknownObjectIdentifier) :
    (aws_der_decoder_load_ecc_key_pair tokens).ret =
      some CalError.unknownObjectIdentifier := by
  have hrec : recognizedCurves tokens = [] := by
    rw [recognizedCurves, List.filterMap_eq_nil_iff]
    intro t ht
    by_cases h1 : t.type = DerType.objectIdentifier
    · simp [h1, h t ht h1]
    · simp [h1]
  have hcurve : (loopRun tokens).curveName = none := by
    rw [loopRun_curveName, hrec]; rfl
  unfold aws_der_decoder_load_ecc_key_pair
  simp [hcurve]

def c5Stream : List DerToken := [⟨DerType.octetString, List.replicate 32 1⟩]

theorem c5_no_recognized_oid_fails_witness :
    (aws_der_decoder_load_ecc_key_pair c5Stream).ret =
      some CalError.unknownObjectIdentifier :=
  c5_no_recognized_oid_fails c5Stream (by intro t ht h1; simp [c5Stream] at ht; simp [ht] at h1)

/-- Claim C10: whenever decode fails with MissingRequiredKeyComponent, the
stream did contain recognized curve OIDs and *out_curve_name has been
overwritten with the last recognized one, despite the overall failure. -/
theorem c10_missing_component_sets_curve (tokens : List DerToken)
    (h : (aws_der_decoder_load_ecc_key_pair tokens).ret =
      some CalError.missingRequiredKeyComponent) :
    recognizedCurves tokens ≠ [] ∧
    (aws_der_decoder_load_ecc_key_pair tokens).curveName =
      (recognizedCurves tokens).getLast? := by
  cases hc : (loopRun tokens).curveName with
  | none =>
    exfalso
    unfold aws_der_decoder_load_ecc_key_pair at h
    simp [hc] at h
  | some c =>
    have hlast : (recognizedCurves tokens).getLast? = some c := by
      rw [← loopRun_curveName]; exact hc
    refine ⟨?_, ?_⟩
    · intro he; rw [he] at hlast; simp at hlast
    · unfold aws_der_decoder_load_ecc_key_pair
      rcases hcl : classifyParts (loopRun tokens)
          (aws_ecc_key_coordinate_byte_size_from_curve_name c) with ⟨priv, pub⟩
      simp only [hc, hcl, hlast]
      by_cases hcond : priv = none ∧ pub = none
      · simp [hcond]
      · cases pub with
        | none =>
          have hpriv : ¬ priv = none := fun hp => hcond ⟨hp, rfl⟩
          simp [hpriv]
        | some p => simp

def c10Stream : List DerToken :=
  [⟨DerType.objectIdentifier, s_p256_oid⟩, ⟨DerType.objectIdentifier, s_p384_oid⟩]

theorem c10_missing_component_sets_curve_witness :
    recognizedCurves c10Stream ≠ [] ∧
    (aws_der_decoder_load_ecc_key_pair c10Stream).curveName =
      (recognizedCurves c10Stream).getLast? :=
  c10_missing_component_sets_curve c10Stream rfl

/-- Claim C4: when both captured slots classify to the same role (both of
private-scalar length, or both of public-blob length), pair_part_2 wins the
classification and decoding succeeds. -/
theorem c4_second_slot_overwrites (tokens : List DerToken) (c : CurveName) (k : Nat)
    (hc : (loopRun tokens).curveName = some c)
    (hk : k = aws_ecc_key_coordinate_byte_size_from_curve_name c) :
    ((loopRun tokens).part1.length = k → (loopRun tokens).part2.length = k →
      (aws_der_decoder_load_ecc_key_pair tokens).privD = (loopRun tokens).part2 ∧
      (aws_der_decoder_load_ecc_key_pair tokens).ret = none) ∧
    ((loopRun tokens).part1.length = k * 2 + 1 →
      (loopRun tokens).part2.length = k * 2 + 1 →
      (aws_der_decoder_load_ecc_key_pair tokens).pubX =
        ((loopRun tokens).part2.drop 1).take k ∧
      (aws_der_decoder_load_ecc_key_pair tokens).pubY =
        (((loopRun tokens).part2.drop 1).drop k).take k ∧
      (aws_der_decoder_load_ecc_key_pair tokens).ret = none) := by
  subst hk
  have hkpos : 0 < aws_ecc_key_coordinate_byte_size_from_curve_name c := by
    cases c <;> simp [aws_ecc_key_coordinate_byte_size_from_curve_name]
  constructor
  · intro h1 h2
    have hp1 : (loopRun tokens).part1 ≠ [] := by
      intro he; rw [he] at h1; simp at h1; omega
    have hp2 : (loopRun tokens).part2 ≠ [] := by
      intro he; rw [he] at h2; simp at h2; omega
    have hcl : classifyParts (loopRun tokens)
        (aws_ecc_key_coordinate_byte_size_from_curve_name c) =
        (some ((loopRun tokens).part2), none) := by
      unfold classifyParts classifySlot
      simp [hp1, hp2, h1, h2]
    unfold aws_der_decoder_load_ecc_key_pair
    simp [hc, hcl]
  · intro h1 h2
    have hp1 : (loopRun tokens).part1 ≠ [] := by
      intro he; rw [he] at h1; simp at h1
    have hp2 : (loopRun tokens).part2 ≠ [] := by
      intro he; rw [he] at h2; simp at h2
    have hne1 : ¬ (loopRun tokens).part1.length =
        aws_ecc_key_coordinate_byte_size_from_curve_name c := by omega
    have hne2 : ¬ (loopRun tokens).part2.length =
        aws_ecc_key_coordinate_byte_size_from_curve_name c := by omega
    have hcl : classifyParts (loopRun tokens)
        (aws_ecc_key_coordinate_byte_size_from_curve_name c) =
        (none, some ((loopRun tokens).part2)) := by
      have hne3 : ¬ (aws_ecc_key_coordinate_byte_size_from_curve_name c * 2 + 1 =
          aws_ecc_key_coordinate_byte_size_from_curve_name c) := by omega
      unfold classifyParts classifySlot
      simp [hp1, hp2, h1, h2, hne3]
    unfold aws_der_decoder_load_ecc_key_pair
    simp [hc, hcl]

def c4Stream : List DerToken :=
  [⟨DerType.objectIdentifier, s_p256_oid⟩,
   ⟨DerType.octetString, List.replicate 32 1⟩,
   ⟨DerType.octetString, List.replicate 32 2⟩]

theorem c4_second_slot_overwrites_witness :
    (aws_der_decoder_load_ecc_key_pair c4Stream).privD = (loopRun c4Stream).part2 ∧
    (aws_der_decoder_load_ecc_key_pair c4Stream).ret = none :=
  (c4_second_slot_overwrites c4Stream CurveName.p256 32 (by decide) rfl).1
    (by decide) (by decide)

def c2Stream : List DerToken :=
  [⟨DerType.objectIdentifier, s_p256_oid⟩,
   ⟨DerType.bitString, 5 :: (List.replicate 32 7 ++ List.replicate 32 9)⟩]

/-- Claim C2 is refuted on the code: a 65-byte public blob whose first byte
is 5 (not the uncompressed-point indicator 0x04) is accepted; decode
succeeds, skips the unchecked first byte and splits the rest, so no
verification of the format byte takes place. -/
theorem c2_counterexample :
    (5 : Byte) ≠ 0x04 ∧
    (aws_der_decoder_load_ecc_key_pair c2Stream).ret = none ∧
    (aws_der_decoder_load_ecc_key_pair c2Stream).pubX = List.replicate 32 7 ∧
    (aws_der_decoder_load_ecc_key_pair c2Stream).pubY = List.replicate 32 9 := by
  refine ⟨by decide, ?_, ?_, ?_⟩ <;> decide

/-- Claim C2 as amended: whenever a public blob is identified, the decoder
skips its first byte WITHOUT verifying it (any first byte is accepted) and
splits the remaining bytes into the X view (first key_coordinate_size bytes
after the skipped byte) and the Y view (the next key_coordinate_size
bytes). -/
theorem c2_public_blob_split_unchecked (tokens : List DerToken) (c : CurveName)
    (k : Nat) (p : List Byte)
    (hc : (loopRun tokens).curveName = some c)
    (hk : k = aws_ecc_key_coordinate_byte_size_from_curve_name c)
    (hp : (classifyParts (loopRun tokens) k).2 = some p) :
    (aws_der_decoder_load_ecc_key_pair tokens).ret = none ∧
    (aws_der_decoder_load_ecc_key_pair tokens).pubX = (p.drop 1).take k ∧
    (aws_der_decoder_load_ecc_key_pair tokens).pubY = ((p.drop 1).drop k).take k := by
  subst hk
  rcases hcl : classifyParts (loopRun tokens)
      (aws_ecc_key_coordinate_byte_size_from_curve_name c) with ⟨priv, pub⟩
  rw [hcl] at hp
  simp only at hp
  subst hp
  unfold aws_der_decoder_load_ecc_key_pair
  simp [hc, hcl]

theorem c2_public_blob_split_unchecked_witness :
    (aws_der_decoder_load_ecc_key_pair c2Stream).ret = none ∧
    (aws_der_decoder_load_ecc_key_pair c2Stream).pubX =
      (((5 : Byte) :: (List.replicate 32 7 ++ List.replicate 32 9)).drop 1).take 32 ∧
    (aws_der_decoder_load_ecc_key_pair c2Stream).pubY =
      ((((5 : Byte) :: (List.replicate 32 7 ++ List.replicate 32 9)).drop 1).drop 32).take 32 :=
  c2_public_blob_split_unchecked c2Stream CurveName.p256 32
    ((5 : Byte) :: (List.replicate 32 7 ++ List.replicate 32 9))
    (by decide) rfl (by decide)

def c1Stream : List DerToken :=
  [⟨DerType.objectIdentifier, s_p256_oid⟩,
   ⟨DerType.octetString, List.replicate 32 1⟩,
   ⟨DerType.octetString, List.replicate 32 2⟩,
   ⟨DerType.octetString, List.replicate 32 3⟩]

/-- Claim C1 is refuted on the code: after the second captured string,
current_part keeps pointing at pair_part_2, so the third OCTET_STRING is not
ignored; it overwrites pair_part_2 (bytes 2 become bytes 3) and the decoded
private view takes the third token's bytes. -/
theorem c1_counterexample :
    (loopRun c1Stream).part2 = List.replicate 32 3 ∧
    List.replicate 32 (3 : Byte) ≠ List.replicate 32 2 ∧
    (aws_der_decoder_load_ecc_key_pair c1Stream).privD = List.replicate 32 3 := by
  refine ⟨?_, ?_, ?_⟩ <;> decide

/-- Claim C1 as amended: the first BIT_STRING / OCTET_STRING token is
captured into slot pair_part_1, and every subsequent one is captured into
slot pair_part_2, each overwriting the one before, so pair_part_2 ends up
with the LAST such token rather than the second; later tokens are not
ignored. -/
theorem c1_slot_capture_last_wins (tokens : List DerToken) :
    (loopRun tokens).part1 = (keyStrings tokens).headD [] ∧
    (loopRun tokens).part2 = ((keyStrings tokens).drop 1).getLastD [] := by
  have h := foldl_stepToken_slots tokens initLoopState
  rw [show initLoopState.onPart2 = false from rfl] at h
  simp only [Bool.false_eq_true, if_false] at h
  cases hks : keyStrings tokens with
  | nil =>
    rw [hks] at h
    simp only at h
    unfold loopRun
    rw [Prod.mk.injEq, Prod.mk.injEq] at h
    exact ⟨h.1, h.2.1⟩
  | cons a rest =>
    rw [hks] at h
    simp only at h
    unfold loopRun
    rw [Prod.mk.injEq, Prod.mk.injEq] at h
    refine ⟨h.1, ?_⟩
    rw [h.2.1]
    simp [initLoopState]

/-- Claim C8: release decrements the reference count by one and runs the
destroy path exactly when the value observed before the decrement was 1;
consequently any sequence of paired acquire / release calls starting from
count 1 ends at count 1 with zero destroy invocations, and one further
release invokes destroy exactly once. -/
theorem c8_release_destroy_at_one :
    (∀ s : KeyPairRc, 1 ≤ s.refCount →
      (aws_ecc_key_pair_release s).refCount = s.refCount - 1 ∧
      ((aws_ecc_key_pair_release s).destroyCalls = s.destroyCalls + 1 ↔
        s.refCount = 1) ∧
      (¬ s.refCount = 1 →
        (aws_ecc_key_pair_release s).destroyCalls = s.destroyCalls)) ∧
    (∀ ops : List RcOp, pairedOps ops →
      (runOps ⟨1, 0⟩ ops).refCount = 1 ∧
      (runOps ⟨1, 0⟩ ops).destroyCalls = 0 ∧
      (aws_ecc_key_pair_release (runOps ⟨1, 0⟩ ops)).destroyCalls = 1) := by
  constructor
  · intro s _
    by_cases h1 : s.refCount = 1
    · simp [aws_ecc_key_pair_release, h1]
    · simp [aws_ecc_key_pair_release, h1]
  · intro ops hpair
    have hsafe : safeFrom 1 ops := by
      apply safeFrom_of_prefixBound
      intro n hn
      rcases Nat.lt_or_ge n ops.length with hlt | hge
      · have := hpair.2 n hlt
        omega
      · have hlen : n = ops.length := by omega
        rw [hlen, List.take_length]
        have := hpair.1
        omega
    have hrun := runOps_safe ops 1 0 hsafe
    have hbal : 1 + countAcq ops - countRel ops = 1 := by
      have := hpair.1
      omega
    rw [hrun, hbal]
    refine ⟨rfl, rfl, ?_⟩
    simp [aws_ecc_key_pair_release]

def c8Ops : List RcOp := [RcOp.acquire, RcOp.acquire, RcOp.release, RcOp.release]

theorem c8_release_destroy_at_one_witness :
    (aws_ecc_key_pair_release ⟨1, 0⟩).refCount = 1 - 1 ∧
    (runOps ⟨1, 0⟩ c8Ops).refCount = 1 ∧
    (runOps ⟨1, 0⟩ c8Ops).destroyCalls = 0 ∧
    (aws_ecc_key_pair_release (runOps ⟨1, 0⟩ c8Ops)).destroyCalls = 1 :=
  ⟨(c8_release_destroy_at_one.1 ⟨1, 0⟩ (by decide)).1,
   c8_release_destroy_at_one.2 c8Ops
     (by unfold pairedOps; exact ⟨by decide, by decide⟩)⟩
